import Mathlib

/-!
Verification of the sticky session/flow registry and schema-validation engine of
the `node_apps` JSON validation server (`json_server/validator/server.js`, which
embeds `validators/index.js`, and its near-identical draft
`json_server/validation_server.js`).

The JavaScript source is shallowly embedded: the mutable global `state` /
`current` pair becomes an explicit `SrvState` threaded through the request
handlers, `new Date().toISOString()` timestamps become a `Nat` clock,
`randomUUID()` id generation becomes fresh counters, and filesystem /
`require` / ajv interaction is represented by explicit environment functions
(`Env`) plus the explicit caches the source keeps (`CACHE` for compiled
schemas, Node's module cache for `require`).  Schema payloads and ajv error
objects are opaque type parameters `P` and `E`: ajv's contract is that a
compiled validator maps a payload to its list of errors, empty iff valid.
-/

namespace NodeApps

/-- `path.join a b` for the joins the source performs (POSIX separator). -/
def pathJoin (a b : String) : String := a ++ "/" ++ b

/-- Property read `l[k]` on a JS object modelled as an insertion-ordered
association list. -/
def assocGet {κ α : Type} [DecidableEq κ] (l : List (κ × α)) (k : κ) : Option α :=
  match l with
  | [] => none
  | (k', v) :: rest => if k' = k then some v else assocGet rest k

/-- In-place mutation of the value stored at key `k` (JS object property
assignment on an existing key). -/
def updateAssoc {κ α : Type} [DecidableEq κ] (k : κ) (f : α → α) :
    List (κ × α) → List (κ × α)
  | [] => []
  | (k', v) :: rest =>
    if k' = k then (k', f v) :: rest else (k', v) :: updateAssoc k f rest

/-- `delete l[k]` on a JS object. -/
def removeAssoc {κ α : Type} [DecidableEq κ] (k : κ) : List (κ × α) → List (κ × α)
  | [] => []
  | (k', v) :: rest =>
    if k' = k then removeAssoc k rest else (k', v) :: removeAssoc k rest

/-- `assertFlowId`: the regex test `/^[A-Za-z0-9_]+$/.test(str || "")`. -/
def validFlowId (s : String) : Bool :=
  s ≠ "" && s.toList.all (fun c => c.isAlphanum || c = '_')

/-- JS exceptions as the engine distinguishes them: the custom
`ValidationError` class versus any other thrown `Error`. -/
inductive JsErr where
  | validationError (msg : String)
  | jsError (msg : String)
deriving DecidableEq

/-- Possible results of a plugin's `selectSchema` as the source inspects them:
a falsy value, a (truthy-checked) string, or an array of references. -/
inductive SelRet where
  | nullish
  | single (r : String)
  | arr (rs : List (Option String))

/-- Possible results of a plugin's custom `validate` as the source inspects
them: an array of strings, a bare string, or anything else (ignored). -/
inductive CustomOut where
  | arr (ss : List String)
  | str (s : String)
  | other

/-- A recorded payload outcome (the `record` pushed onto `f.messages`). -/
structure Rec (P : Type) where
  messageId : Nat
  timestamp : Nat
  status : Bool                 -- `ValidationStatus`: `true` = "Valid"
  errors : List String          -- `formattedErrorList`
  payload : P

/-- A flow object: `{ name, createdAt, endedAt|null, messages: [...] }`. -/
structure Flow (P : Type) where
  name : String
  createdAt : Nat
  endedAt : Option Nat
  messages : List (Rec P)

/-- A session object: `{ createdAt, endedAt|null, flows: {...} }`. -/
structure Session (P : Type) where
  createdAt : Nat
  endedAt : Option Nat
  flows : List (String × Flow P)

/-- The cross-message context handed to plugin functions.  The source also
exposes the raw `state` object; only the functional view the claims are about
is modelled. -/
structure Ctx (P : Type) where
  sessionId : Nat
  flowId : String
  findMessages : Option String → Option (Rec P → Bool) → Except JsErr (List (Rec P))
  getFlowFn : String → Except JsErr (Flow P)
  getSessionFn : Unit → Except JsErr (Session P)

/-- A loaded flow plugin module: the optional capability set
`{selectSchema?, validate?}`; either function may throw. -/
structure Plugin (P : Type) where
  selectSchema : Option (P → Ctx P → Except JsErr SelRet)
  validate : Option (P → Ctx P → Except JsErr CustomOut)

/-- The module object `{}` returned when no plugin file exists. -/
def emptyPlugin {P : Type} : Plugin P := ⟨none, none⟩

/-- The whole process-wide mutable state: `state.sessions`, the sticky
`current` pointers, the fresh-id and clock sources standing in for
`randomUUID()` / `Date`, and Node's `require` module cache. -/
structure SrvState (P : Type) where
  sessions : List (Nat × Session P)
  curSession : Option Nat
  curFlow : Option String
  nextSid : Nat
  nextMid : Nat
  clock : Nat
  modCache : List (String × Plugin P)

/-- The state at process start. -/
def initState (P : Type) : SrvState P :=
  { sessions := [], curSession := none, curFlow := none,
    nextSid := 0, nextMid := 0, clock := 0, modCache := [] }

/-- External collaborators of the engine: the filesystem (schema files, plugin
module files) and ajv.  `disk p` is the evaluation outcome of the module file
at `p` (`none` when the file does not exist; module top-level code may throw).
`compiled p` is the behaviour of the ajv validator compiled from the schema
file at `p`: the error list is empty iff the payload is accepted.  `render`
is the per-error sentence body of `formatErrorsAsSentences` (the keyword
switch, a pure function of the ajv error object).  `ptype` reads
`payload.type` (`none` when the payload is falsy or carries no such field). -/
structure Env (P E : Type) where
  baseDir : String
  disk : String → Option (Except JsErr (Plugin P))
  fileExists : String → Bool
  dirList : String → Option (List String)
  compiled : String → P → List E
  render : E → String
  ptype : P → Option String

/-- `path.join(baseDir, "flows")`. -/
def flowsBase {P E : Type} (env : Env P E) : String := pathJoin env.baseDir "flows"

/-- `path.join(baseDir, "common", "schemas")`. -/
def commonBase {P E : Type} (env : Env P E) : String :=
  pathJoin (pathJoin env.baseDir "common") "schemas"

/- =====  validators/index.js : schema store and plugin loader  ===== -/

/-- `listSchemaFiles(dir)`: `[]` when the directory is missing, else the
`.json` entries joined onto `dir`. -/
def listSchemaFiles {P E : Type} (env : Env P E) (dir : String) : List String :=
  match env.dirList dir with
  | none => []
  | some names => (names.filter (fun f => f.endsWith ".json")).map (fun f => pathJoin dir f)

/-- Node's `require(p)` with its per-process module cache: a previously
loaded module is returned from the cache without touching the disk; a module
whose top-level evaluation throws is not cached. -/
def requireMod {M : Type} (disk : String → Option (Except JsErr M))
    (mcache : List (String × M)) (p : String) :
    Except JsErr M × List (String × M) :=
  match assocGet mcache p with
  | some m => (.ok m, mcache)
  | none =>
    match disk p with
    | none => (.error (.jsError ("Cannot find module " ++ p)), mcache)
    | some (.ok m) => (.ok m, (p, m) :: mcache)
    | some (.error e) => (.error e, mcache)

/-- `loadFlowModule(flowDir)`: try `index.js` then `custom.js`, `require` the
first that exists, else the empty module.  (The source's
`typeof mod === "object"` guard is absorbed by typing modules as `Plugin`.) -/
def loadFlowModule {M : Type} (disk : String → Option (Except JsErr M)) (emptyM : M)
    (mcache : List (String × M)) (flowDir : String) :
    Except JsErr M × List (String × M) :=
  let c1 := pathJoin flowDir "index.js"
  let c2 := pathJoin flowDir "custom.js"
  if (disk c1).isSome then requireMod disk mcache c1
  else if (disk c2).isSome then requireMod disk mcache c2
  else (.ok emptyM, mcache)

/-- `resolveRefToPath(ref, flowDir, commonDir)`: absolute paths as-is,
`@common/` names under the shared directory, otherwise flow directory with
fallback to the shared directory, `none` when found in neither. -/
def resolveRefToPath {P E : Type} (env : Env P E) (flowDir commonDir : String)
    (ref : Option String) : Option String :=
  match ref with
  | none => none
  | some r =>
    if r = "" then none                       -- `!ref`: the empty string is falsy
    else if r.startsWith "/" then some r      -- `path.isAbsolute(ref)`
    else if r.startsWith "@common/" then some (pathJoin commonDir (r.drop 8))
    else
      let flowPath := pathJoin flowDir r
      if env.fileExists flowPath then some flowPath
      else
        let commonPath := pathJoin commonDir r
        if env.fileExists commonPath then some commonPath else none

/-- `if (chosen)` on the value returned by `selectSchema`. -/
def selTruthy : SelRet → Bool
  | .nullish => false
  | .single r => r ≠ ""
  | .arr _ => true

/-- `Array.isArray(chosen) ? chosen : [chosen]`. -/
def selArr : SelRet → List (Option String)
  | .nullish => []
  | .single r => [some r]
  | .arr rs => rs

/-- The `ValidationError` message thrown when no candidate schema exists. -/
def noSchemaMsg : String := "No schema found in flow or common schema directories"

/-- Steps 3–5 of `resolveSchemaPaths` (one-file shortcuts, then all flow
files else all common files, else throw `ValidationError`). -/
def resolveSchemaPathsDirPart {P E : Type} (env : Env P E)
    (flowDir commonDir : String) : Except JsErr (List String) :=
  match listSchemaFiles env flowDir, listSchemaFiles env commonDir with
  | [f], _ => .ok [f]
  | [], [c] => .ok [c]
  | [], [] => .error (.validationError noSchemaMsg)
  | [], c :: cs => .ok (c :: cs)
  | ffs, _ => .ok ffs

/-- Steps 2–5 of `resolveSchemaPaths` (the heuristics run when the plugin
selected nothing usable): `payload.type` lookup, then the directory
fallbacks. -/
def resolveSchemaPathsHeuristic {P E : Type} (env : Env P E)
    (flowDir commonDir : String) (payload : P) : Except JsErr (List String) :=
  let byType : Option (List String) :=
    match env.ptype payload with
    | some t =>
      if t ≠ "" then                           -- `payload.type` must be truthy
        let nm := t ++ ".schema.json"
        let f := pathJoin flowDir nm
        if env.fileExists f then some [f]
        else
          let c := pathJoin commonDir nm
          if env.fileExists c then some [c] else none
      else none
    | none => none
  match byType with
  | some ps => .ok ps
  | none => resolveSchemaPathsDirPart env flowDir commonDir

/-- `resolveSchemaPaths(flowDir, commonDir, payload, ctx, mod)`: the plugin's
`selectSchema` pick first (used when it yields at least one resolvable path),
then the heuristics. -/
def resolveSchemaPaths {P E : Type} (env : Env P E) (flowDir commonDir : String)
    (mod : Plugin P) (payload : P) (ctx : Ctx P) : Except JsErr (List String) :=
  let sel : Except JsErr (Option (List String)) :=
    match mod.selectSchema with
    | none => .ok none
    | some f =>
      match f payload ctx with
      | .error e => .error e
      | .ok chosen =>
        if selTruthy chosen then
          let paths := (selArr chosen).filterMap (resolveRefToPath env flowDir commonDir)
          if paths.length > 0 then .ok (some paths) else .ok none
        else .ok none
  match sel with
  | .error e => .error e
  | .ok (some paths) => .ok paths
  | .ok none => resolveSchemaPathsHeuristic env flowDir commonDir payload

/-- One entry of the `results` array built by `tryValidate`. -/
structure SchemaResult (E : Type) where
  schemaPath : String
  ok : Bool
  errors : List E

/-- `tryValidate(ajv, payload, schemaPaths)`: run every candidate
independently.  (`compileSchema`'s cache is analysed separately under
`SchemaCache`; here the compiled validator for a path is read off the
environment.)  ajv's contract: `validate(payload)` is `true` iff
`validate.errors` would be empty. -/
def tryValidate {P E : Type} (compiled : String → P → List E) (payload : P)
    (schemaPaths : List String) : List (SchemaResult E) :=
  schemaPaths.map (fun sp =>
    let errs := compiled sp payload
    let ok := errs.isEmpty
    { schemaPath := sp, ok := ok, errors := if ok then [] else errs })

/-- The pass-if-any aggregation of `validate`: `okAny` via `results.some`,
and on total failure the representative error list is `sorted[0].errors`
where `sorted` stably sorts by ascending error count (`Array.prototype.sort`
is stable per the ECMAScript spec; modelled by insertion sort).  The `[]`
branch is unreachable: resolution never yields an empty candidate list. -/
def schemaPhase {P E : Type} (compiled : String → P → List E) (payload : P)
    (schemaPaths : List String) : List E :=
  let results := tryValidate compiled payload schemaPaths
  let okAny := results.any (fun r => r.ok)
  if okAny then []
  else
    match results.insertionSort
        (fun a b => a.errors.length ≤ b.errors.length) with
    | [] => []
    | s :: _ => s.errors

/-- The body of the `validate` closure returned by `getValidatorForFlow`:
resolve candidates (a `ValidationError` becomes an Invalid verdict with that
message as sole custom error, anything else is rethrown), run pass-if-any
schema validation, then the optional custom checks (whose throw propagates). -/
def validateFn {P E : Type} (env : Env P E) (flowDir commonDir : String)
    (mod : Plugin P) (payload : P) (ctx : Ctx P) :
    Except JsErr (Bool × List E × List String) :=
  match resolveSchemaPaths env flowDir commonDir mod payload ctx with
  | .error (.validationError m) => .ok (false, [], [m])
  | .error (.jsError m) => .error (.jsError m)
  | .ok schemaPaths =>
    let schemaErrors := schemaPhase env.compiled payload schemaPaths
    let customE : Except JsErr (List String) :=
      match mod.validate with
      | none => .ok []
      | some vf =>
        match vf payload ctx with
        | .error e => .error e
        | .ok (.arr ss) => .ok ss
        | .ok (.str s) => .ok [s]
        | .ok .other => .ok []
    match customE with
    | .error e => .error e
    | .ok customErrors =>
      .ok (schemaErrors.isEmpty && customErrors.isEmpty, schemaErrors, customErrors)

/-- `getValidatorForFlow(flowId, opts)`: resolve the flow directory and load
the plugin module (this is where a throwing plugin file faults).  The
returned validator is `validateFn` applied to the loaded module. -/
def getValidatorForFlow {P E : Type} (env : Env P E)
    (mcache : List (String × Plugin P)) (flowId : String) :
    Except JsErr (Plugin P) × List (String × Plugin P) :=
  loadFlowModule env.disk emptyPlugin mcache (pathJoin (flowsBase env) flowId)

/- =====  server.js : registry helpers and request handlers  ===== -/

/-- `getSession(sessionId)` (read part; the `mustExist` throw is the `none`
branch at each call site). -/
def getSessionFn {P : Type} (st : SrvState P) (sid : Nat) : Option (Session P) :=
  assocGet st.sessions sid

/-- `getFlow(sessionId, flowId)` (read part). -/
def getFlowFn {P : Type} (st : SrvState P) (sid : Nat) (fid : String) : Option (Flow P) :=
  (getSessionFn st sid).bind (fun s => assocGet s.flows fid)

/-- Replace the session stored under `sid` (in-place JS object mutation). -/
def updateSession {P : Type} (st : SrvState P) (sid : Nat) (f : Session P → Session P) :
    SrvState P :=
  { st with sessions := updateAssoc sid f st.sessions }

/-- Mutate the flow stored under `(sid, fid)`. -/
def updateFlow {P : Type} (st : SrvState P) (sid : Nat) (fid : String)
    (g : Flow P → Flow P) : SrvState P :=
  updateSession st sid (fun s => { s with flows := updateAssoc fid g s.flows })

/-- `name || flowId` (the empty string is falsy). -/
def flowName (name : Option String) (fid : String) : String :=
  match name with
  | some n => if n = "" then fid else n
  | none => fid

/-- `ensureFlow(sessionId, flowId, name)`: create the flow only when absent
(property addition appends in JS object insertion order); `none` models the
`getSession` throw on an unknown session. -/
def ensureFlow {P : Type} (st : SrvState P) (sid : Nat) (fid : String)
    (name : Option String) : Option (SrvState P) :=
  match getSessionFn st sid with
  | none => none
  | some s =>
    match assocGet s.flows fid with
    | some _ => some st
    | none =>
      some (updateSession st sid (fun s' =>
        { s' with flows := s'.flows ++
            [(fid, { name := flowName name fid, createdAt := st.clock,
                     endedAt := none, messages := [] })] }))

/-- Outcome of a non-ingest handler, as far as the claims need it. -/
inductive HttpOut where
  | ok
  | conflict (msg : String)       -- 409 responses
  | badRequest (msg : String)     -- 400 responses
  | thrown (msg : String)         -- a synchronous throw (error middleware)
deriving DecidableEq

/-- `POST /sessions`: auto-end any current session, create a fresh one, make
it current, clear the current flow. -/
def startSession {P : Type} (st : SrvState P) : HttpOut × SrvState P :=
  match st.curSession with
  | some sid =>
    match getSessionFn st sid with
    | none => (.thrown "Unknown sessionId", st)
    | some s =>
      let st0 := if s.endedAt = none
        then updateSession st sid (fun s' => { s' with endedAt := some st.clock })
        else st
      (.ok, { st0 with
        sessions := st0.sessions ++
          [(st0.nextSid, { createdAt := st0.clock, endedAt := none, flows := [] })],
        curSession := some st0.nextSid, curFlow := none,
        nextSid := st0.nextSid + 1, clock := st0.clock + 1 })
  | none =>
    (.ok, { st with
      sessions := st.sessions ++
        [(st.nextSid, { createdAt := st.clock, endedAt := none, flows := [] })],
      curSession := some st.nextSid, curFlow := none,
      nextSid := st.nextSid + 1, clock := st.clock + 1 })

/-- `POST /sessions/end`. -/
def endSession {P : Type} (st : SrvState P) : HttpOut × SrvState P :=
  match st.curSession with
  | none => (.conflict "No active session", st)
  | some sid =>
    match getSessionFn st sid with
    | none => (.thrown "Unknown sessionId", st)
    | some _ =>
      let st0 := updateSession st sid (fun s => { s with endedAt := some st.clock })
      (.ok, { st0 with curSession := none, curFlow := none, clock := st0.clock + 1 })

/-- `DELETE /sessions/:sessionId`: silent no-op on an unknown id; deleting the
current session clears both pointers. -/
def deleteSession {P : Type} (st : SrvState P) (sid : Nat) : HttpOut × SrvState P :=
  let st0 := { st with sessions := removeAssoc sid st.sessions }
  if st.curSession = some sid then
    (.ok, { st0 with curSession := none, curFlow := none })
  else (.ok, st0)

/-- The tail of `POST /flows` once the previous flow has been auto-ended:
`ensureFlow` then set the current-flow pointer. -/
def finishStartFlow {P : Type} (st : SrvState P) (sid : Nat) (fid : String)
    (name : Option String) : HttpOut × SrvState P :=
  match ensureFlow st sid fid name with
  | none => (.thrown "Unknown sessionId", st)
  | some st2 => (.ok, { st2 with curFlow := some fid, clock := st2.clock + 1 })

/-- `POST /flows`: requires an active session and a well-formed flow id,
auto-ends the previous flow (setting `endedAt` only if unset), creates the
flow if absent and makes it current. -/
def startFlow {P : Type} (st : SrvState P) (flowId name : Option String) :
    HttpOut × SrvState P :=
  match st.curSession with
  | none => (.conflict "No active session. Start a session first.", st)
  | some sid =>
    match flowId with
    | none => (.badRequest "flowId required", st)
    | some fid =>
      if fid = "" then (.badRequest "flowId required", st)    -- `!flowId`
      else if ¬ validFlowId fid then
        (.thrown "flowId must be alphanumeric or underscore", st)
      else
        match st.curFlow with
        | some pf =>
          match getFlowFn st sid pf with
          | none => (.thrown "Unknown flowId", st)
          | some prev =>
            let st1 := if prev.endedAt = none
              then updateFlow st sid pf (fun f => { f with endedAt := some st.clock })
              else st
            finishStartFlow st1 sid fid name
        | none => finishStartFlow st sid fid name

/-- `POST /flows/end`. -/
def endFlow {P : Type} (st : SrvState P) : HttpOut × SrvState P :=
  match st.curSession with
  | none => (.conflict "No active session", st)
  | some sid =>
    match st.curFlow with
    | none => (.conflict "No active flow", st)
    | some fid =>
      match getFlowFn st sid fid with
      | none => (.thrown "Unknown flowId", st)
      | some _ =>
        let st0 := updateFlow st sid fid (fun f => { f with endedAt := some st.clock })
        (.ok, { st0 with curFlow := none, clock := st0.clock + 1 })

/-- `DELETE /state`: clear everything and both pointers. -/
def clearAll {P : Type} (st : SrvState P) : HttpOut × SrvState P :=
  (.ok, { st with sessions := [], curSession := none, curFlow := none })

/-- The `where(m)` predicate application (`!where || where(m)`). -/
def whereFn {P : Type} (w : Option (Rec P → Bool)) (m : Rec P) : Bool :=
  match w with
  | none => true
  | some f => f m

/-- The cross-message context the ingest handler builds: `findMessages`
restricted to one flow when `flowId` is given (truthy), else all flows of the
session, filtered by the optional predicate; plus the raw accessors. -/
def mkCtx {P : Type} (st : SrvState P) (sid : Nat) (fid : String) (s : Session P) :
    Ctx P :=
  { sessionId := sid
    flowId := fid
    findMessages := fun fidQ w =>
      let flowsE : Except JsErr (List (Flow P)) :=
        match fidQ with
        | some fq =>
          if fq = "" then .ok (s.flows.map (fun p => p.2))   -- `fid ? ... : ...`: "" is falsy
          else
            match getFlowFn st sid fq with
            | none => .error (.jsError ("Unknown flowId: " ++ fq))
            | some fl => .ok [fl]
        | none => .ok (s.flows.map (fun p => p.2))
      match flowsE with
      | .error e => .error e
      | .ok fls => .ok ((fls.map (fun fl => fl.messages.filter (whereFn w))).flatten)
    getFlowFn := fun fq =>
      match getFlowFn st sid fq with
      | none => .error (.jsError ("Unknown flowId: " ++ fq))
      | some fl => .ok fl
    getSessionFn := fun _ =>
      match getSessionFn st sid with
      | none => .error (.jsError "Unknown sessionId")
      | some s' => .ok s' }

/-- Numbered rendering `\x7b i + 1 + k \x7d. msg` used for both the schema
sentences (`k = 0`) and the custom errors (`k = schemaErrors.length`). -/
def numberFrom (k : Nat) : List String → List String
  | [] => []
  | m :: ms => (toString (k + 1) ++ ". " ++ m) :: numberFrom (k + 1) ms

/-- `formatErrorsAsSentences(errors)`: every switch branch prefixes
`idx + 1. ` onto a sentence computed from the error object alone
(`env.render`). -/
def formatErrorsAsSentences {E : Type} (render : E → String) (errors : List E) :
    List String :=
  numberFrom 0 (errors.map render)

/-- Outcome of `POST /` (ingest). An `unhandledFault` is a rejection of the
async handler: Express 4 never routes it to the error middleware, so it
reaches the transport layer unhandled. -/
inductive IngestOut where
  | noSession
  | noFlow
  | unhandledFault (e : JsErr)
  | okMsg (messageId : Nat)
  | invalidMsg (messageId : Nat) (errors : List String)
deriving DecidableEq

/-- The try/catch around `validator.validate`: a successful triple, a
`ValidationError` downgraded to its message, any other throw caught, logged
and converted to the generic "Internal validator error" custom error. -/
def verdictOf {P E : Type} (env : Env P E) (flowDir commonDir : String)
    (mod : Plugin P) (payload : P) (ctx : Ctx P) : Bool × List E × List String :=
  match validateFn env flowDir commonDir mod payload ctx with
  | .ok r => r
  | .error (.validationError m) => (false, [], [m])
  | .error (.jsError _) => (false, [], ["Internal validator error"])

/-- The `record` object the ingest handler pushes: fresh id, timestamp,
Valid/Invalid status and the numbered error sentences. -/
def mkRecord {P E : Type} (env : Env P E) (st : SrvState P) (sid : Nat)
    (fid : String) (s : Session P) (mod : Plugin P) (payload : P) : Rec P :=
  let tri := verdictOf env (pathJoin (flowsBase env) fid) (commonBase env)
    mod payload (mkCtx st sid fid s)
  let valid := tri.1
  let schemaErrors := tri.2.1
  let customErrors := tri.2.2
  let formatted := if valid then []
    else formatErrorsAsSentences env.render schemaErrors ++
         numberFrom schemaErrors.length customErrors
  { messageId := st.nextMid, timestamp := st.clock,
    status := valid, errors := formatted, payload := payload }

/-- `POST /` — the ingest handler: route to the sticky pointers, build the
context, resolve the validator for the flow (plugin load happens here,
outside the try/catch), execute validation inside try/catch (`verdictOf`),
then append the record and respond. -/
def ingest {P E : Type} (env : Env P E) (payload : P) (st : SrvState P) :
    IngestOut × SrvState P :=
  match st.curSession with
  | none => (.noSession, st)
  | some sid =>
    match st.curFlow with
    | none => (.noFlow, st)
    | some fid =>
      match getSessionFn st sid with
      | none => (.unhandledFault (.jsError "Unknown sessionId"), st)
      | some s =>
        match getFlowFn st sid fid with
        | none => (.unhandledFault (.jsError "Unknown flowId"), st)
        | some _ =>
          match getValidatorForFlow env st.modCache fid with
          | (.error e, mc) => (.unhandledFault e, { st with modCache := mc })
          | (.ok mod, mc) =>
            let rcd := mkRecord env st sid fid s mod payload
            let st2 := updateFlow { st with modCache := mc } sid fid
              (fun f => { f with messages := f.messages ++ [rcd] })
            let st3 := { st2 with nextMid := st2.nextMid + 1, clock := st2.clock + 1 }
            (if rcd.status then .okMsg rcd.messageId
             else .invalidMsg rcd.messageId rcd.errors, st3)

/-- The Registry operations of §4.1 / §6, as requests against the server. -/
inductive Op (P : Type) where
  | startSession
  | endSession
  | startFlow (flowId name : Option String)
  | endFlow
  | deleteSession (sid : Nat)
  | ingest (payload : P)
  | clearAll

/-- One request's effect on the process state. -/
def step {P E : Type} (env : Env P E) (op : Op P) (st : SrvState P) : SrvState P :=
  match op with
  | .startSession => (startSession st).2
  | .endSession => (endSession st).2
  | .startFlow fid name => (startFlow st fid name).2
  | .endFlow => (endFlow st).2
  | .deleteSession sid => (deleteSession st sid).2
  | .ingest p => (ingest env p st).2
  | .clearAll => (clearAll st).2

/-- A whole request sequence from process start. -/
def run {P E : Type} (env : Env P E) (ops : List (Op P)) (st : SrvState P) : SrvState P :=
  match ops with
  | [] => st
  | op :: rest => run env rest (step env op st)

/- =====  validators/index.js : the compiled-schema cache (`CACHE`)  ===== -/

namespace SchemaCache

/-- A schema file on disk: its content (abstracted as a version number — the
compiled ajv validator is a pure function of the parsed content) and its
last-modification time. -/
structure SchemaFile where
  content : Nat
  mtime : Nat
deriving DecidableEq

/-- The filesystem at one point in time. -/
structure DiskState where
  files : String → Option SchemaFile

/-- `compileSchema(ajv, schemaPath)` with the module-level `CACHE` map made
explicit: a cache hit is returned as-is; on a miss the file is read, compiled
and stored under its path.  (`readFileSync` on a missing file throws.) -/
def compileSchema (fs : DiskState) (cache : List (String × Nat)) (p : String) :
    Except JsErr (Nat × List (String × Nat)) :=
  match assocGet cache p with
  | some v => .ok (v, cache)
  | none =>
    match fs.files p with
    | none => .error (.jsError ("ENOENT: no such file " ++ p))
    | some file => .ok (file.content, (p, file.content) :: cache)

end SchemaCache

/- =====  Spec-side definitions (for refinement-style claims)  ===== -/

/-- Spec wording of §4.4 step 1: the references returned by `selectSchema`
("one schema reference | sequence of references | absent"). -/
def refsOf : SelRet → List (Option String)
  | .nullish => []
  | .single r => if r = "" then [] else [some r]
  | .arr rs => rs

/-- Spec wording of §4.4 steps 3–5: single flow file; single shared file when
the flow directory is empty; all flow files when any exist, else all shared
files; else `NoSchemaFound`. -/
def dirFallbackSpec {P E : Type} (env : Env P E) (flowDir commonDir : String) :
    Except JsErr (List String) :=
  let flowFiles := listSchemaFiles env flowDir
  let commonFiles := listSchemaFiles env commonDir
  if flowFiles.length = 1 then .ok flowFiles
  else if flowFiles.length = 0 ∧ commonFiles.length = 1 then .ok commonFiles
  else if flowFiles.length > 0 then .ok flowFiles
  else if commonFiles.length > 0 then .ok commonFiles
  else .error (.validationError noSchemaMsg)

/-- Spec wording of §4.4 step 2: when the payload carries a truthy `type`
discriminant, the `<type>.schema.json` file in the flow directory, else the
shared directory; if found, that single file. -/
def heuristicSpec {P E : Type} (env : Env P E) (flowDir commonDir : String)
    (payload : P) : Except JsErr (List String) :=
  match env.ptype payload with
  | some t =>
    if t ≠ "" then
      let nm := t ++ ".schema.json"
      match [pathJoin flowDir nm, pathJoin commonDir nm].find? env.fileExists with
      | some p => .ok [p]
      | none => dirFallbackSpec env flowDir commonDir
    else dirFallbackSpec env flowDir commonDir
  | none => dirFallbackSpec env flowDir commonDir

/-- Candidate-schema resolution as the spec words it (§4.4 steps 1–6): the
plugin's selection is used, and all later steps skipped, iff at least one
returned reference resolves to a path; otherwise the heuristics. -/
def resolveSchemaPathsSpec {P E : Type} (env : Env P E) (flowDir commonDir : String)
    (mod : Plugin P) (payload : P) (ctx : Ctx P) : Except JsErr (List String) :=
  match mod.selectSchema with
  | some f =>
    match f payload ctx with
    | .error e => .error e
    | .ok chosen =>
      match (refsOf chosen).filterMap (resolveRefToPath env flowDir commonDir) with
      | [] => heuristicSpec env flowDir commonDir payload
      | p :: ps => .ok (p :: ps)
  | none => heuristicSpec env flowDir commonDir payload

/-- Spec wording of the representative-failure rule: the candidate result
with the fewest individual field errors, ties broken in favour of the earlier
candidate in enumeration order. -/
def fewestErrors {E : Type} : List (SchemaResult E) → Option (SchemaResult E)
  | [] => none
  | r :: rs =>
    match fewestErrors rs with
    | none => some r
    | some m => if r.errors.length ≤ m.errors.length then some r else some m

/- =====  Association-list lemmas  ===== -/

theorem assocGet_updateAssoc_self {κ α : Type} [DecidableEq κ] (k : κ) (f : α → α)
    (l : List (κ × α)) : assocGet (updateAssoc k f l) k = (assocGet l k).map f := by
  induction l with
  | nil => rfl
  | cons p rest ih =>
    obtain ⟨k', v⟩ := p
    by_cases h : k' = k <;> simp [updateAssoc, assocGet, h, ih]

theorem assocGet_updateAssoc_ne {κ α : Type} [DecidableEq κ] {k q : κ} (h : q ≠ k)
    (f : α → α) (l : List (κ × α)) :
    assocGet (updateAssoc k f l) q = assocGet l q := by
  induction l with
  | nil => rfl
  | cons p rest ih =>
    obtain ⟨k', v⟩ := p
    by_cases h1 : k' = k
    · subst h1
      have h2 : ¬ k' = q := fun e => h (e ▸ rfl)
      simp [updateAssoc, assocGet, h2]
    · by_cases h2 : k' = q
      · subst h2
        simp [updateAssoc, assocGet, h, h1]
      · simp [updateAssoc, assocGet, h1, h2, ih]

theorem assocGet_removeAssoc_ne {κ α : Type} [DecidableEq κ] {k q : κ} (h : q ≠ k)
    (l : List (κ × α)) : assocGet (removeAssoc k l) q = assocGet l q := by
  induction l with
  | nil => rfl
  | cons p rest ih =>
    obtain ⟨k', v⟩ := p
    by_cases h1 : k' = k
    · subst h1
      have h2 : ¬ k' = q := fun e => h (e ▸ rfl)
      simp [removeAssoc, assocGet, h2, ih]
    · by_cases h2 : k' = q
      · subst h2
        simp [removeAssoc, assocGet, h, h1]
      · simp [removeAssoc, assocGet, h1, h2, ih]

theorem assocGet_append_single_isSome {κ α : Type} [DecidableEq κ] (l : List (κ × α))
    (k : κ) (v : α) : (assocGet (l ++ [(k, v)]) k).isSome := by
  induction l with
  | nil => simp [assocGet]
  | cons p rest ih =>
    obtain ⟨k', v'⟩ := p
    by_cases h : k' = k <;> simp [assocGet, h, ih]

theorem mem_of_assocGet {κ α : Type} [DecidableEq κ] {l : List (κ × α)} {k : κ} {v : α}
    (h : assocGet l k = some v) : (k, v) ∈ l := by
  induction l with
  | nil => simp [assocGet] at h
  | cons p rest ih =>
    obtain ⟨k', v'⟩ := p
    by_cases e : k' = k
    · subst e
      simp [assocGet] at h
      simp [h]
    · simp [assocGet, e] at h
      exact List.mem_cons_of_mem _ (ih h)

/- =====  The current-pointer invariant (C6)  ===== -/

/-- §3 `CurrentPointer` invariant: the current flow id is non-null only if a
current session id is set, that session exists, and the flow exists inside
it. -/
def PtrInv {P : Type} (st : SrvState P) : Prop :=
  ∀ fid, st.curFlow = some fid →
    ∃ sid s, st.curSession = some sid ∧ assocGet st.sessions sid = some s ∧
      (assocGet s.flows fid).isSome

theorem ptrInv_of_curFlow_none {P : Type} {st : SrvState P} (h : st.curFlow = none) :
    PtrInv st := by
  intro fid hf
  rw [h] at hf
  cases hf

theorem ptrInv_fields {P : Type} {st st' : SrvState P}
    (hs : st'.sessions = st.sessions) (hc : st'.curSession = st.curSession)
    (hf : st'.curFlow = st.curFlow) (h : PtrInv st) : PtrInv st' := by
  intro f0 h0
  obtain ⟨sid0, s0, a, b, c⟩ := h f0 (hf ▸ h0)
  exact ⟨sid0, s0, hc ▸ a, hs ▸ b, c⟩

theorem ptrInv_updateFlow {P : Type} {st : SrvState P} (h : PtrInv st) (sid : Nat)
    (fid : String) (g : Flow P → Flow P) : PtrInv (updateFlow st sid fid g) := by
  intro f0 hf
  obtain ⟨sid0, s0, hcs, hget, hsome⟩ := h f0 hf
  by_cases e : sid0 = sid
  · subst e
    refine ⟨sid0, { s0 with flows := updateAssoc fid g s0.flows }, hcs, ?_, ?_⟩
    · show assocGet (updateAssoc sid0 _ st.sessions) sid0 = _
      rw [assocGet_updateAssoc_self, hget]
      rfl
    · show (assocGet (updateAssoc fid g s0.flows) f0).isSome
      by_cases ef : f0 = fid
      · subst ef
        rw [assocGet_updateAssoc_self]
        cases hx : assocGet s0.flows f0 with
        | none => rw [hx] at hsome; cases hsome
        | some fl => simp
      · rw [assocGet_updateAssoc_ne ef]
        exact hsome
  · refine ⟨sid0, s0, hcs, ?_, hsome⟩
    show assocGet (updateAssoc sid _ st.sessions) sid0 = _
    rw [assocGet_updateAssoc_ne e]
    exact hget

theorem ensureFlow_spec {P : Type} {st st' : SrvState P} {sid : Nat} {fid : String}
    {name : Option String} (h : ensureFlow st sid fid name = some st') :
    st'.curSession = st.curSession ∧ st'.curFlow = st.curFlow ∧
    ∃ s', assocGet st'.sessions sid = some s' ∧ (assocGet s'.flows fid).isSome := by
  unfold ensureFlow at h
  cases hgs : getSessionFn st sid with
  | none => simp only [hgs] at h; cases h
  | some s =>
    simp only [hgs] at h
    cases hgf : assocGet s.flows fid with
    | some fl =>
      simp only [hgf] at h
      cases Option.some.inj h
      exact ⟨rfl, rfl, s, hgs, by rw [hgf]; rfl⟩
    | none =>
      simp only [hgf] at h
      cases Option.some.inj h
      refine ⟨rfl, rfl,
        { s with flows := s.flows ++ [(fid,
            { name := flowName name fid, createdAt := st.clock,
              endedAt := none, messages := [] })] }, ?_, ?_⟩
      · show assocGet (updateAssoc sid _ st.sessions) sid = _
        rw [assocGet_updateAssoc_self]
        have hgs' : assocGet st.sessions sid = some s := hgs
        rw [hgs']
        rfl
      · exact assocGet_append_single_isSome _ _ _

theorem ptrInv_finishStartFlow {P : Type} {st : SrvState P} (h : PtrInv st)
    (sid : Nat) (fid : String) (name : Option String)
    (hcs : st.curSession = some sid) : PtrInv (finishStartFlow st sid fid name).2 := by
  unfold finishStartFlow
  cases he : ensureFlow st sid fid name with
  | none => simp only [he]; exact h
  | some st2 =>
    simp only [he]
    obtain ⟨hcs2, _, s', hget', hsome'⟩ := ensureFlow_spec he
    intro f0 hf
    have hf' : fid = f0 := by simpa using hf
    subst hf'
    refine ⟨sid, s', ?_, hget', hsome'⟩
    show st2.curSession = some sid
    rw [hcs2, hcs]

theorem ptrInv_startSession {P : Type} {st : SrvState P} (h : PtrInv st) :
    PtrInv (startSession st).2 := by
  unfold startSession
  cases hcs : st.curSession with
  | none => simp only [hcs]; exact ptrInv_of_curFlow_none rfl
  | some sid =>
    simp only [hcs]
    cases hgs : getSessionFn st sid with
    | none => simp only [hgs]; exact h
    | some s => simp only [hgs]; exact ptrInv_of_curFlow_none rfl

theorem ptrInv_endSession {P : Type} {st : SrvState P} (h : PtrInv st) :
    PtrInv (endSession st).2 := by
  unfold endSession
  cases hcs : st.curSession with
  | none => simp only [hcs]; exact h
  | some sid =>
    simp only [hcs]
    cases hgs : getSessionFn st sid with
    | none => simp only [hgs]; exact h
    | some s => simp only [hgs]; exact ptrInv_of_curFlow_none rfl

theorem ptrInv_deleteSession {P : Type} {st : SrvState P} (h : PtrInv st) (d : Nat) :
    PtrInv (deleteSession st d).2 := by
  unfold deleteSession
  by_cases hc : st.curSession = some d
  · simp only [if_pos hc]
    exact ptrInv_of_curFlow_none rfl
  · simp only [if_neg hc]
    intro f0 hf
    obtain ⟨sid0, s0, hcs, hget, hsome⟩ := h f0 hf
    have hne : sid0 ≠ d := fun e => hc (e ▸ hcs)
    exact ⟨sid0, s0, hcs, by
      show assocGet (removeAssoc d st.sessions) sid0 = _
      rw [assocGet_removeAssoc_ne hne]
      exact hget, hsome⟩

theorem ptrInv_startFlow {P : Type} {st : SrvState P} (h : PtrInv st)
    (flowId name : Option String) : PtrInv (startFlow st flowId name).2 := by
  unfold startFlow
  cases hcs : st.curSession with
  | none => simp only [hcs]; exact h
  | some sid =>
    simp only [hcs]
    cases flowId with
    | none => exact h
    | some fid =>
      by_cases h0 : fid = ""
      · simp only [if_pos h0]; exact h
      · simp only [if_neg h0]
        by_cases h1 : validFlowId fid
        · simp only [if_neg (not_not_intro h1)]
          cases hcf : st.curFlow with
          | none => simp only [hcf]; exact ptrInv_finishStartFlow h sid fid name hcs
          | some pf =>
            simp only [hcf]
            cases hgf : getFlowFn st sid pf with
            | none => simp only [hgf]; exact h
            | some prev =>
              simp only [hgf]
              by_cases hend : prev.endedAt = none
              · simp only [if_pos hend]
                exact ptrInv_finishStartFlow
                  (ptrInv_updateFlow h sid pf _) sid fid name hcs
              · simp only [if_neg hend]
                exact ptrInv_finishStartFlow h sid fid name hcs
        · simp only [if_pos h1]
          exact h

theorem ptrInv_endFlow {P : Type} {st : SrvState P} (h : PtrInv st) :
    PtrInv (endFlow st).2 := by
  unfold endFlow
  cases hcs : st.curSession with
  | none => simp only [hcs]; exact h
  | some sid =>
    simp only [hcs]
    cases hcf : st.curFlow with
    | none => simp only [hcf]; exact h
    | some fid =>
      simp only [hcf]
      cases hgf : getFlowFn st sid fid with
      | none => simp only [hgf]; exact h
      | some f => simp only [hgf]; exact ptrInv_of_curFlow_none rfl

theorem ptrInv_ingest {P E : Type} (env : Env P E) (p : P) {st : SrvState P}
    (h : PtrInv st) : PtrInv (ingest env p st).2 := by
  unfold ingest
  cases hcs : st.curSession with
  | none => simp only [hcs]; exact h
  | some sid =>
    simp only [hcs]
    cases hcf : st.curFlow with
    | none => simp only [hcf]; exact h
    | some fid =>
      simp only [hcf]
      cases hgs : getSessionFn st sid with
      | none => simp only [hgs]; exact h
      | some s =>
        simp only [hgs]
        cases hgf : getFlowFn st sid fid with
        | none => simp only [hgf]; exact h
        | some f =>
          simp only [hgf]
          have hflow : assocGet s.flows fid = some f := by
            have hx := hgf
            unfold getFlowFn at hx
            rw [hgs] at hx
            simpa using hx
          cases hval : getValidatorForFlow env st.modCache fid with
          | mk r mc =>
            cases r with
            | error e =>
              simp only [hval]
              intro f0 hf0
              have hfe : fid = f0 := by simpa using hf0
              subst hfe
              exact ⟨sid, s, rfl, hgs, by rw [hflow]; rfl⟩
            | ok mod =>
              simp only [hval]
              have hbase : PtrInv ({ st with curSession := some sid, curFlow := some fid, modCache := mc } : SrvState P) := by
                intro f0 hf0
                have hfe : fid = f0 := by simpa using hf0
                subst hfe
                exact ⟨sid, s, rfl, hgs, by rw [hflow]; rfl⟩
              exact ptrInv_fields rfl rfl rfl (ptrInv_updateFlow hbase sid fid _)

theorem ptrInv_clearAll {P : Type} (st : SrvState P) : PtrInv (clearAll st).2 :=
  ptrInv_of_curFlow_none rfl

theorem ptrInv_step {P E : Type} (env : Env P E) (op : Op P) {st : SrvState P}
    (h : PtrInv st) : PtrInv (step env op st) := by
  cases op with
  | startSession => exact ptrInv_startSession h
  | endSession => exact ptrInv_endSession h
  | startFlow fid name => exact ptrInv_startFlow h fid name
  | endFlow => exact ptrInv_endFlow h
  | deleteSession sid => exact ptrInv_deleteSession h sid
  | ingest p => exact ptrInv_ingest env p h
  | clearAll => exact ptrInv_clearAll st

theorem ptrInv_run {P E : Type} (env : Env P E) (ops : List (Op P))
    {st : SrvState P} (h : PtrInv st) : PtrInv (run env ops st) := by
  induction ops generalizing st with
  | nil => exact h
  | cons op rest ih => exact ih (ptrInv_step env op h)

/-- C6: after every sequence of Registry operations (start/end session,
start/end flow, delete session, ingest, clear-all) from process start, the
current-pointer invariant holds: the current flow id is non-null only if the
current session id is non-null, that session exists in the registry, and the
flow named by the flow id exists inside that session. -/
theorem c6_current_pointer_invariant {P E : Type} (env : Env P E) (ops : List (Op P)) :
    PtrInv (run env ops (initState P)) :=
  ptrInv_run env ops (fun _ hf => nomatch hf)

/- =====  startFlow reuse lemmas (C9, C10)  ===== -/

theorem getFlowFn_some {P : Type} {st : SrvState P} {sid : Nat} {s : Session P}
    (hs : assocGet st.sessions sid = some s) (fid : String) :
    getFlowFn st sid fid = assocGet s.flows fid := by
  unfold getFlowFn getSessionFn
  rw [hs]
  rfl

theorem sessions_updateFlow_self {P : Type} {st : SrvState P} {sid : Nat}
    {s : Session P} (hs : assocGet st.sessions sid = some s) (fid : String)
    (g : Flow P → Flow P) :
    assocGet (updateFlow st sid fid g).sessions sid =
      some { s with flows := updateAssoc fid g s.flows } := by
  show assocGet (updateAssoc sid _ st.sessions) sid = _
  rw [assocGet_updateAssoc_self, hs]
  rfl

/-- `finishStartFlow` when the target flow already exists: `ensureFlow`
reuses it, so the only state change is the current-flow pointer (and the
clock tick). -/
theorem finishStartFlow_existing {P : Type} {st : SrvState P} {sid : Nat}
    {s : Session P} {fid : String} {fl : Flow P} (name : Option String)
    (hs : assocGet st.sessions sid = some s) (hf : assocGet s.flows fid = some fl) :
    finishStartFlow st sid fid name =
      (.ok, { st with curFlow := some fid, clock := st.clock + 1 }) := by
  unfold finishStartFlow ensureFlow
  have hgs : getSessionFn st sid = some s := hs
  simp only [hgs, hf]

/-- C9: starting a flow id that already exists in the current session reuses
the existing flow object: after the call the flow stored under that id has
the same `messages` history and `createdAt` as before (never reset), and it
is the current flow. -/
theorem c9_startFlow_idempotent_history {P : Type} (st : SrvState P) (sid : Nat)
    (s : Session P) (fid : String) (fl : Flow P) (name : Option String)
    (hcs : st.curSession = some sid)
    (hs : assocGet st.sessions sid = some s)
    (hf : assocGet s.flows fid = some fl)
    (hvalid : validFlowId fid = true)
    (hinv : PtrInv st) :
    ∃ s' fl', assocGet (startFlow st (some fid) name).2.sessions sid = some s' ∧
      assocGet s'.flows fid = some fl' ∧
      fl'.messages = fl.messages ∧ fl'.createdAt = fl.createdAt ∧
      (startFlow st (some fid) name).2.curFlow = some fid := by
  have h0 : ¬ fid = "" := by
    intro e
    rw [e] at hvalid
    exact absurd hvalid (by decide)
  unfold startFlow
  simp only [hcs, if_neg h0, if_neg (not_not_intro hvalid)]
  cases hcf : st.curFlow with
  | none =>
    simp only [hcf]
    rw [finishStartFlow_existing name hs hf]
    exact ⟨s, fl, hs, hf, rfl, rfl, rfl⟩
  | some pf =>
    simp only [hcf]
    obtain ⟨sid0, s0, hcs0, hs0, hpf⟩ := hinv pf hcf
    rw [hcs] at hcs0
    cases Option.some.inj hcs0
    rw [hs] at hs0
    cases Option.some.inj hs0
    obtain ⟨prev, hprev⟩ := Option.isSome_iff_exists.mp hpf
    rw [getFlowFn_some hs pf]
    simp only [hprev]
    by_cases hend : prev.endedAt = none
    · simp only [if_pos hend]
      by_cases hpq : pf = fid
      · subst hpq
        rw [hprev] at hf
        cases Option.some.inj hf
        have hupd : assocGet (updateAssoc pf
            (fun f => { f with endedAt := some st.clock }) s.flows) pf =
            some { fl with endedAt := some st.clock } := by
          rw [assocGet_updateAssoc_self, hprev]
          rfl
        rw [finishStartFlow_existing name (sessions_updateFlow_self hs pf _) hupd]
        exact ⟨_, _, sessions_updateFlow_self hs pf _, hupd, rfl, rfl, rfl⟩
      · have hupd : assocGet (updateAssoc pf
            (fun f => { f with endedAt := some st.clock }) s.flows) fid =
            some fl := by
          rw [assocGet_updateAssoc_ne (fun e => hpq e.symm)]
          exact hf
        rw [finishStartFlow_existing name (sessions_updateFlow_self hs pf _) hupd]
        exact ⟨_, fl, sessions_updateFlow_self hs pf _, hupd, rfl, rfl, rfl⟩
    · simp only [if_neg hend]
      rw [finishStartFlow_existing name hs hf]
      exact ⟨s, fl, hs, hf, rfl, rfl, rfl⟩

/-- C10: calling `POST /flows` with the id that is already the current flow
first auto-ends that same flow (setting `endedAt` when unset) and then
re-selects it: afterwards the current flow is that id and its `endedAt` is
non-null — the active flow is simultaneously marked ended. -/
theorem c10_startFlow_same_id_ends_current {P : Type} (st : SrvState P) (sid : Nat)
    (s : Session P) (fid : String) (fl : Flow P) (name : Option String)
    (hcs : st.curSession = some sid)
    (hs : assocGet st.sessions sid = some s)
    (hcf : st.curFlow = some fid)
    (hf : assocGet s.flows fid = some fl)
    (hvalid : validFlowId fid = true) :
    (startFlow st (some fid) name).2.curFlow = some fid ∧
    ∃ s' fl', assocGet (startFlow st (some fid) name).2.sessions sid = some s' ∧
      assocGet s'.flows fid = some fl' ∧ fl'.endedAt ≠ none := by
  have h0 : ¬ fid = "" := by
    intro e
    rw [e] at hvalid
    exact absurd hvalid (by decide)
  unfold startFlow
  simp only [hcs, hcf, if_neg h0, if_neg (not_not_intro hvalid)]
  rw [getFlowFn_some hs fid]
  simp only [hf]
  by_cases hend : fl.endedAt = none
  · simp only [if_pos hend]
    have hupd : assocGet (updateAssoc fid
        (fun f => { f with endedAt := some st.clock }) s.flows) fid =
        some { fl with endedAt := some st.clock } := by
      rw [assocGet_updateAssoc_self, hf]
      rfl
    rw [finishStartFlow_existing name (sessions_updateFlow_self hs fid _) hupd]
    exact ⟨rfl, _, _, sessions_updateFlow_self hs fid _, hupd, by simp⟩
  · simp only [if_neg hend]
    rw [finishStartFlow_existing name hs hf]
    exact ⟨rfl, s, fl, hs, hf, hend⟩

/- =====  Concrete fixtures for witnesses  ===== -/

/-- A trivial environment: empty filesystem, no plugin files, every compiled
schema accepts everything. -/
def envNone : Env Nat Unit :=
  { baseDir := "validators", disk := fun _ => none, fileExists := fun _ => false,
    dirList := fun _ => none, compiled := fun _ _ => [], render := fun _ => "",
    ptype := fun _ => none }

/-- The flow object created by `startSession` then `startFlow "a"` from
process start. -/
def flDemo : Flow Nat :=
  { name := "a", createdAt := 1, endedAt := none, messages := [] }

/-- The session object holding `flDemo`. -/
def sDemo : Session Nat :=
  { createdAt := 0, endedAt := none, flows := [("a", flDemo)] }

/-- The server state after `startSession` then `startFlow "a"`. -/
def stDemo : SrvState Nat :=
  run envNone [.startSession, .startFlow (some "a") none] (initState Nat)

theorem ptrInv_stDemo : PtrInv stDemo := by
  intro f hf
  have he : "a" = f := Option.some.inj hf
  subst he
  exact ⟨0, sDemo, rfl, rfl, rfl⟩

/-- Witness for C9 at the concrete state `stDemo`. -/
theorem c9_startFlow_idempotent_history_witness :
    assocGet sDemo.flows "a" = some flDemo ∧
    (∃ s' fl', assocGet (startFlow stDemo (some "a") none).2.sessions 0 = some s' ∧
      assocGet s'.flows "a" = some fl' ∧
      fl'.messages = flDemo.messages ∧ fl'.createdAt = flDemo.createdAt ∧
      (startFlow stDemo (some "a") none).2.curFlow = some "a") :=
  ⟨rfl, c9_startFlow_idempotent_history stDemo 0 sDemo "a" flDemo none rfl rfl rfl
    (by decide) ptrInv_stDemo⟩

/-- Witness for C10 at the concrete state `stDemo` (whose current flow is
already `"a"`). -/
theorem c10_startFlow_same_id_ends_current_witness :
    stDemo.curFlow = some "a" ∧
    ((startFlow stDemo (some "a") none).2.curFlow = some "a" ∧
     ∃ s' fl', assocGet (startFlow stDemo (some "a") none).2.sessions 0 = some s' ∧
       assocGet s'.flows "a" = some fl' ∧ fl'.endedAt ≠ none) :=
  ⟨rfl, c10_startFlow_same_id_ends_current stDemo 0 sDemo "a" flDemo none rfl rfl rfl rfl
    (by decide)⟩

/- =====  C4: the resolution precedence  ===== -/

theorem dirPart_eq {P E : Type} (env : Env P E) (flowDir commonDir : String) :
    resolveSchemaPathsDirPart env flowDir commonDir =
      dirFallbackSpec env flowDir commonDir := by
  unfold resolveSchemaPathsDirPart dirFallbackSpec
  cases hff : listSchemaFiles env flowDir with
  | nil =>
    cases hcf : listSchemaFiles env commonDir with
    | nil => simp
    | cons c cs =>
      cases cs with
      | nil => simp
      | cons c2 cs2 => simp
  | cons f fs =>
    cases fs with
    | nil => simp
    | cons f2 fs2 => simp

theorem heuristic_eq {P E : Type} (env : Env P E) (flowDir commonDir : String)
    (payload : P) :
    resolveSchemaPathsHeuristic env flowDir commonDir payload =
      heuristicSpec env flowDir commonDir payload := by
  unfold resolveSchemaPathsHeuristic heuristicSpec
  cases hpt : env.ptype payload with
  | none => simpa using dirPart_eq env flowDir commonDir
  | some t =>
    by_cases ht : t = ""
    · simpa [ht] using dirPart_eq env flowDir commonDir
    · simp only [if_pos ht, List.find?]
      cases hef : env.fileExists (pathJoin flowDir (t ++ ".schema.json")) with
      | true => simp [hef]
      | false =>
        simp only [hef]
        cases hec : env.fileExists (pathJoin commonDir (t ++ ".schema.json")) with
        | true => simp [hec]
        | false => simpa [hec] using dirPart_eq env flowDir commonDir

/-- C4: candidate-schema resolution follows the spec's precedence exactly —
plugin selection iff it yields at least one resolvable path, then the
`type`-discriminant file (flow then shared), then single-file shortcuts,
then all flow files, else all shared files. -/
theorem c4_resolution_precedence {P E : Type} (env : Env P E)
    (flowDir commonDir : String) (mod : Plugin P) (payload : P) (ctx : Ctx P) :
    resolveSchemaPaths env flowDir commonDir mod payload ctx =
      resolveSchemaPathsSpec env flowDir commonDir mod payload ctx := by
  unfold resolveSchemaPaths resolveSchemaPathsSpec
  have hh := heuristic_eq env flowDir commonDir payload
  cases hsel : mod.selectSchema with
  | none => simp only [hsel]; exact hh
  | some f =>
    simp only [hsel]
    cases hres : f payload ctx with
    | error e => simp only [hres]
    | ok chosen =>
      simp only [hres]
      cases chosen with
      | nullish => simpa [selTruthy, refsOf] using hh
      | single r =>
        by_cases hr : r = ""
        · simpa [selTruthy, refsOf, hr] using hh
        · cases hrr : resolveRefToPath env flowDir commonDir (some r) with
          | none => simpa [selTruthy, selArr, refsOf, hr, hrr] using hh
          | some p => simp [selTruthy, selArr, refsOf, hr, hrr]
      | arr rs =>
        cases hps : rs.filterMap (resolveRefToPath env flowDir commonDir) with
        | nil => simpa [selTruthy, selArr, refsOf, hps] using hh
        | cons p ps => simp [selTruthy, selArr, refsOf, hps]

/- =====  C5: pass-if-any with fewest-errors representative  ===== -/

/-- The head of the stable sort by ascending error count is exactly the
earliest candidate achieving the minimum error count. -/
theorem insertionSort_head_fewest {E : Type} (l : List (SchemaResult E)) :
    (l.insertionSort (fun a b => a.errors.length ≤ b.errors.length)).head? =
      fewestErrors l := by
  induction l with
  | nil => rfl
  | cons a l ih =>
    rw [List.insertionSort]
    cases h : l.insertionSort (fun a b => a.errors.length ≤ b.errors.length) with
    | nil =>
      rw [h] at ih
      unfold fewestErrors
      rw [← ih]
      rfl
    | cons b t =>
      rw [h] at ih
      unfold fewestErrors
      rw [← ih]
      show (List.orderedInsert _ a (b :: t)).head? = _
      rw [List.orderedInsert]
      by_cases hab : a.errors.length ≤ b.errors.length
      · rw [if_pos hab]
        simp [hab]
      · rw [if_neg hab]
        simp [hab]

theorem fewestErrors_mem {E : Type} {l : List (SchemaResult E)} {r : SchemaResult E}
    (h : fewestErrors l = some r) : r ∈ l := by
  induction l with
  | nil => cases h
  | cons a l ih =>
    unfold fewestErrors at h
    cases hl : fewestErrors l with
    | none =>
      simp only [hl] at h
      cases Option.some.inj h
      exact List.mem_cons_self _ _
    | some m =>
      simp only [hl] at h
      by_cases ham : a.errors.length ≤ m.errors.length
      · rw [if_pos ham] at h
        cases Option.some.inj h
        exact List.mem_cons_self _ _
      · rw [if_neg ham] at h
        cases Option.some.inj h
        exact List.mem_cons_of_mem _ (ih hl)

theorem tryValidate_not_ok_errors_ne {P E : Type} {compiled : String → P → List E}
    {payload : P} {paths : List String} {r : SchemaResult E}
    (hr : r ∈ tryValidate compiled payload paths) (hok : r.ok = false) :
    r.errors ≠ [] := by
  unfold tryValidate at hr
  obtain ⟨p, hp, he⟩ := List.mem_map.mp hr
  cases he
  dsimp only at hok ⊢
  rw [hok]
  simp only [Bool.false_eq_true, if_false]
  intro hc
  rw [hc] at hok
  simp at hok

/-- `okAny` is exactly "some candidate accepts the payload". -/
theorem tryValidate_any_ok {P E : Type} (compiled : String → P → List E)
    (payload : P) (paths : List String) :
    ((tryValidate compiled payload paths).any (fun r => r.ok) = true) ↔
      ∃ p ∈ paths, compiled p payload = [] := by
  unfold tryValidate
  rw [List.any_eq_true]
  constructor
  · rintro ⟨x, hx, hok⟩
    obtain ⟨p, hp, he⟩ := List.mem_map.mp hx
    cases he
    refine ⟨p, hp, ?_⟩
    simpa [List.isEmpty_iff] using hok
  · rintro ⟨p, hp, he⟩
    refine ⟨_, List.mem_map.mpr ⟨p, hp, rfl⟩, ?_⟩
    simp [he]

/-- The all-fail case of `schemaPhase`: the reported list is the error list
of the fewest-errors candidate (earliest on ties), which is one of the
results and itself a failing one. -/
theorem schemaPhase_all_fail {P E : Type} (compiled : String → P → List E)
    (payload : P) (paths : List String) (hne : paths ≠ [])
    (hok : (tryValidate compiled payload paths).any (fun r => r.ok) = false) :
    ∃ r, fewestErrors (tryValidate compiled payload paths) = some r ∧
      schemaPhase compiled payload paths = r.errors ∧
      r ∈ tryValidate compiled payload paths ∧ r.ok = false := by
  have hres_ne : tryValidate compiled payload paths ≠ [] := by
    unfold tryValidate
    simpa using hne
  have hperm := List.perm_insertionSort
    (fun (a b : SchemaResult E) => a.errors.length ≤ b.errors.length)
    (tryValidate compiled payload paths)
  cases hs : (tryValidate compiled payload paths).insertionSort
      (fun a b => a.errors.length ≤ b.errors.length) with
  | nil =>
    exfalso
    apply hres_ne
    have hlen := hperm.length_eq
    rw [hs] at hlen
    exact List.length_eq_zero.mp hlen.symm
  | cons r t =>
    have hfew : fewestErrors (tryValidate compiled payload paths) = some r := by
      rw [← insertionSort_head_fewest, hs]
      rfl
    have hmem : r ∈ tryValidate compiled payload paths :=
      (List.Perm.mem_iff (hs ▸ hperm)).mp (List.mem_cons_self r t)
    have hrok : r.ok = false := by
      have := List.any_eq_false.mp hok r hmem
      simpa using this
    refine ⟨r, hfew, ?_, hmem, hrok⟩
    unfold schemaPhase
    simp only [hok, hs]
    simp

/-- C5: every candidate is run independently; overall schema validation
passes iff at least one candidate accepts; when all fail, the reported
schema-error list is exactly the error list of the failing candidate with
the fewest individual errors, ties broken toward the earlier candidate. -/
theorem c5_pass_if_any_fewest_errors {P E : Type} (compiled : String → P → List E)
    (payload : P) (paths : List String) (hne : paths ≠ []) :
    ((tryValidate compiled payload paths).map (fun r => r.schemaPath) = paths) ∧
    ((schemaPhase compiled payload paths = []) ↔ ∃ p ∈ paths, compiled p payload = []) ∧
    ((¬ ∃ p ∈ paths, compiled p payload = []) →
      ∃ r, fewestErrors (tryValidate compiled payload paths) = some r ∧
        schemaPhase compiled payload paths = r.errors) := by
  refine ⟨?_, ?_, ?_⟩
  · unfold tryValidate
    rw [List.map_map]
    exact List.map_id paths
  · constructor
    · intro hsp
      by_contra hno
      have hok : (tryValidate compiled payload paths).any (fun r => r.ok) = false := by
        rw [← Bool.not_eq_true]
        intro hc
        exact hno ((tryValidate_any_ok compiled payload paths).mp hc)
      obtain ⟨r, _, hr2, hr3, hr4⟩ := schemaPhase_all_fail compiled payload paths hne hok
      exact tryValidate_not_ok_errors_ne hr3 hr4 (hr2 ▸ hsp)
    · intro hex
      unfold schemaPhase
      simp only [(tryValidate_any_ok compiled payload paths).mpr hex]
      rfl
  · intro hno
    have hok : (tryValidate compiled payload paths).any (fun r => r.ok) = false := by
      rw [← Bool.not_eq_true]
      intro hc
      exact hno ((tryValidate_any_ok compiled payload paths).mp hc)
    obtain ⟨r, hr1, hr2, _, _⟩ := schemaPhase_all_fail compiled payload paths hne hok
    exact ⟨r, hr1, hr2⟩

/-- A two-candidate scenario: schema "A" rejects with two errors, "B"
accepts. -/
def compiledDemo : String → Nat → List Nat :=
  fun p _ => if p = "A" then [0, 1] else []

/-- Witness for C5 on the concrete two-candidate set. -/
theorem c5_pass_if_any_fewest_errors_witness :
    (["A", "B"] : List String) ≠ [] ∧
    (((tryValidate compiledDemo 7 ["A", "B"]).map (fun r => r.schemaPath) = ["A", "B"]) ∧
     ((schemaPhase compiledDemo 7 ["A", "B"] = []) ↔
        ∃ p ∈ ["A", "B"], compiledDemo p 7 = []) ∧
     ((¬ ∃ p ∈ ["A", "B"], compiledDemo p 7 = []) →
       ∃ r, fewestErrors (tryValidate compiledDemo 7 ["A", "B"]) = some r ∧
         schemaPhase compiledDemo 7 ["A", "B"] = r.errors)) :=
  ⟨by decide, c5_pass_if_any_fewest_errors compiledDemo 7 ["A", "B"] (by decide)⟩

/- =====  C2: the compiled-schema cache is never invalidated  ===== -/

namespace SchemaCache

/-- The disk before the edit: `/s/a.json` has content version 0, mtime 100. -/
def diskBefore : DiskState :=
  ⟨fun p => if p = "/s/a.json" then some ⟨0, 100⟩ else none⟩

/-- The disk after the edit: `/s/a.json` has content version 1 and a newer
mtime 200. -/
def diskAfter : DiskState :=
  ⟨fun p => if p = "/s/a.json" then some ⟨1, 200⟩ else none⟩

end SchemaCache

/-- C2 counterexample: the first resolution compiles content version 0 and
caches it under the path; the file then changes on disk (newer mtime, new
content 1); the later resolution of the same path returns the stale
compilation of version 0 — no recompilation happens, contradicting the
claim that a newer modification time triggers a recompile and that a stale
cached compilation is never returned. -/
theorem c2_counterexample :
    SchemaCache.compileSchema SchemaCache.diskBefore [] "/s/a.json" =
      .ok (0, [("/s/a.json", 0)]) ∧
    (SchemaCache.diskBefore.files "/s/a.json").map SchemaCache.SchemaFile.mtime =
      some 100 ∧
    (SchemaCache.diskAfter.files "/s/a.json").map SchemaCache.SchemaFile.mtime =
      some 200 ∧
    (SchemaCache.diskAfter.files "/s/a.json").map SchemaCache.SchemaFile.content =
      some 1 ∧
    SchemaCache.compileSchema SchemaCache.diskAfter [("/s/a.json", 0)] "/s/a.json" =
      .ok (0, [("/s/a.json", 0)]) :=
  ⟨rfl, rfl, rfl, rfl, rfl⟩

/-- C2 amended: compiled schemas are cached by path, but a cached entry is
returned unconditionally on every later resolution — `compileSchema` never
consults the file's modification time, so after the file changes on disk the
stale compilation keeps being returned for the process lifetime. -/
theorem c2_cache_entry_returned_unconditionally (fs : SchemaCache.DiskState)
    (cache : List (String × Nat)) (p : String) (v : Nat)
    (h : assocGet cache p = some v) :
    SchemaCache.compileSchema fs cache p = .ok (v, cache) := by
  unfold SchemaCache.compileSchema
  simp only [h]

/-- Witness for the amended C2: a cache holding compilation 5 for the path
is hit even though the disk now holds content 1. -/
theorem c2_cache_entry_returned_unconditionally_witness :
    assocGet [("/s/a.json", 5)] "/s/a.json" = some 5 ∧
    SchemaCache.compileSchema SchemaCache.diskAfter [("/s/a.json", 5)] "/s/a.json" =
      .ok (5, [("/s/a.json", 5)]) :=
  ⟨rfl, c2_cache_entry_returned_unconditionally SchemaCache.diskAfter
    [("/s/a.json", 5)] "/s/a.json" 5 rfl⟩

/- =====  C3: the plugin loader reuses Node's module cache  ===== -/

/-- The plugin module file before an edit: evaluates to version 0. -/
def moduleDiskBefore : String → Option (Except JsErr Nat) :=
  fun p => if p = "validators/flows/f/index.js" then some (.ok 0) else none

/-- The plugin module file after an edit: evaluates to version 1. -/
def moduleDiskAfter : String → Option (Except JsErr Nat) :=
  fun p => if p = "validators/flows/f/index.js" then some (.ok 1) else none

/-- C3 counterexample: the first load caches module version 0 under the
resolved path; after the file is edited to version 1 on disk, the next
`loadFlowModule` call still returns the cached version 0 — `require` does
not re-read the file or discard cached bindings, contradicting the claim. -/
theorem c3_counterexample :
    loadFlowModule moduleDiskBefore 0 [] "validators/flows/f" =
      (.ok 0, [("validators/flows/f/index.js", 0)]) ∧
    moduleDiskAfter "validators/flows/f/index.js" = some (.ok 1) ∧
    loadFlowModule moduleDiskAfter 0 [("validators/flows/f/index.js", 0)]
      "validators/flows/f" =
      (.ok 0, [("validators/flows/f/index.js", 0)]) :=
  ⟨rfl, rfl, rfl⟩

/-- C3 amended: `loadFlowModule` is indeed invoked on every validation call,
but it loads through Node's `require` cache: whenever the resolved module
path is already cached, the previously loaded module object is returned
as-is, regardless of the file's current content — plugin edits do not take
effect without restarting the process. -/
theorem c3_module_cache_reused {M : Type} (disk : String → Option (Except JsErr M))
    (emptyM : M) (mcache : List (String × M)) (flowDir : String) (m : M)
    (hex : (disk (pathJoin flowDir "index.js")).isSome = true)
    (hc : assocGet mcache (pathJoin flowDir "index.js") = some m) :
    loadFlowModule disk emptyM mcache flowDir = (.ok m, mcache) := by
  unfold loadFlowModule requireMod
  simp only [hex, if_true, hc]

/-- Witness for the amended C3 at the concrete edited disk. -/
theorem c3_module_cache_reused_witness :
    (moduleDiskAfter (pathJoin "validators/flows/f" "index.js")).isSome = true ∧
    assocGet [("validators/flows/f/index.js", 0)]
      (pathJoin "validators/flows/f" "index.js") = some 0 ∧
    loadFlowModule moduleDiskAfter 7 [("validators/flows/f/index.js", 0)]
      "validators/flows/f" = (.ok 0, [("validators/flows/f/index.js", 0)]) :=
  ⟨rfl, rfl, c3_module_cache_reused moduleDiskAfter 7
    [("validators/flows/f/index.js", 0)] "validators/flows/f" 0 rfl rfl⟩

/- =====  C7: empty candidate set is a validation failure  ===== -/

/-- "No plugin selection yields a path": either the module has no
`selectSchema`, or the call returns a value none of whose references
resolves. -/
def SelectsNoPath {P E : Type} (env : Env P E) (flowDir commonDir : String)
    (mod : Plugin P) (payload : P) (ctx : Ctx P) : Prop :=
  match mod.selectSchema with
  | none => True
  | some f => ∃ chosen, f payload ctx = .ok chosen ∧
      (selArr chosen).filterMap (resolveRefToPath env flowDir commonDir) = []

theorem heuristic_no_schema {P E : Type} (env : Env P E) (flowDir commonDir : String)
    (payload : P)
    (hff : listSchemaFiles env flowDir = [])
    (hcf : listSchemaFiles env commonDir = [])
    (htf : ∀ t, env.fileExists (pathJoin flowDir (t ++ ".schema.json")) = false)
    (htc : ∀ t, env.fileExists (pathJoin commonDir (t ++ ".schema.json")) = false) :
    resolveSchemaPathsHeuristic env flowDir commonDir payload =
      .error (.validationError noSchemaMsg) := by
  unfold resolveSchemaPathsHeuristic resolveSchemaPathsDirPart
  cases hpt : env.ptype payload with
  | none => simp only [hpt, hff, hcf]
  | some t =>
    by_cases ht : t = ""
    · simp only [hpt, ht]
      simp only [hff, hcf]
      simp
    · simp only [hpt, if_pos ht, htf t, htc t]
      simp only [hff, hcf]
      simp

theorem resolveSchemaPaths_no_schema {P E : Type} (env : Env P E)
    (flowDir commonDir : String) (mod : Plugin P) (payload : P) (ctx : Ctx P)
    (hsel : SelectsNoPath env flowDir commonDir mod payload ctx)
    (hff : listSchemaFiles env flowDir = [])
    (hcf : listSchemaFiles env commonDir = [])
    (htf : ∀ t, env.fileExists (pathJoin flowDir (t ++ ".schema.json")) = false)
    (htc : ∀ t, env.fileExists (pathJoin commonDir (t ++ ".schema.json")) = false) :
    resolveSchemaPaths env flowDir commonDir mod payload ctx =
      .error (.validationError noSchemaMsg) := by
  unfold resolveSchemaPaths
  unfold SelectsNoPath at hsel
  cases hms : mod.selectSchema with
  | none =>
    simp only [hms]
    exact heuristic_no_schema env flowDir commonDir payload hff hcf htf htc
  | some f =>
    simp only [hms] at hsel
    obtain ⟨chosen, hch, hpaths⟩ := hsel
    cases hst : selTruthy chosen with
    | false =>
      simp only [hms, hch, hst, Bool.false_eq_true, if_false]
      exact heuristic_no_schema env flowDir commonDir payload hff hcf htf htc
    | true =>
      simp only [hms, hch, hst, if_true, hpaths, List.length_nil]
      simp only [show ¬ (0 : Nat) < 0 from by decide, if_false]
      exact heuristic_no_schema env flowDir commonDir payload hff hcf htf htc

/-- With no candidate schema anywhere, `validate` reports a validation
failure (not a system error): Invalid with the no-schema message as sole
custom error; the custom checks are not reached. -/
theorem validateFn_no_schema {P E : Type} (env : Env P E)
    (flowDir commonDir : String) (mod : Plugin P) (payload : P) (ctx : Ctx P)
    (hres : resolveSchemaPaths env flowDir commonDir mod payload ctx =
      .error (.validationError noSchemaMsg)) :
    validateFn env flowDir commonDir mod payload ctx =
      .ok (false, [], [noSchemaMsg]) := by
  unfold validateFn
  simp only [hres]

theorem getFlowFn_of_sessions {P : Type} {st' : SrvState P} {sid : Nat}
    {s : Session P} {fid : String} {fl : Flow P} (g : Flow P → Flow P)
    (base : List (Nat × Session P))
    (hsess : st'.sessions =
      updateAssoc sid (fun s0 => { s0 with flows := updateAssoc fid g s0.flows }) base)
    (hs : assocGet base sid = some s)
    (hf : assocGet s.flows fid = some fl) :
    getFlowFn st' sid fid = some (g fl) := by
  unfold getFlowFn getSessionFn
  rw [hsess, assocGet_updateAssoc_self, hs]
  show assocGet (updateAssoc fid g s.flows) fid = _
  rw [assocGet_updateAssoc_self, hf]
  rfl

theorem flows_of_getFlowFn {P : Type} {st : SrvState P} {sid : Nat} {s : Session P}
    {fid : String} {f : Flow P} (hgs : getSessionFn st sid = some s)
    (hgf : getFlowFn st sid fid = some f) : assocGet s.flows fid = some f := by
  have hx := hgf
  unfold getFlowFn at hx
  rw [show getSessionFn st sid = some s from hgs] at hx
  simpa using hx

/-- C7: when the flow directory and the shared directory hold zero schema
files, no `type`-named file exists, and no plugin selection yields a path,
the payload is recorded Invalid with exactly one error carrying the message
"No schema found in flow or common schema directories" — a validation
failure, not a system error. -/
theorem c7_no_schema_recorded_invalid {P E : Type} (env : Env P E) (payload : P)
    (st : SrvState P) (sid : Nat) (fid : String) (s : Session P) (f : Flow P)
    (mod : Plugin P) (mc : List (String × Plugin P))
    (hcs : st.curSession = some sid) (hcf : st.curFlow = some fid)
    (hgs : getSessionFn st sid = some s) (hgf : getFlowFn st sid fid = some f)
    (hmod : getValidatorForFlow env st.modCache fid = (.ok mod, mc))
    (hsel : SelectsNoPath env (pathJoin (flowsBase env) fid) (commonBase env)
      mod payload (mkCtx st sid fid s))
    (hff : listSchemaFiles env (pathJoin (flowsBase env) fid) = [])
    (hcfl : listSchemaFiles env (commonBase env) = [])
    (htf : ∀ t, env.fileExists
      (pathJoin (pathJoin (flowsBase env) fid) (t ++ ".schema.json")) = false)
    (htc : ∀ t, env.fileExists
      (pathJoin (commonBase env) (t ++ ".schema.json")) = false) :
    (ingest env payload st).1 = .invalidMsg st.nextMid ["1. " ++ noSchemaMsg] ∧
    getFlowFn (ingest env payload st).2 sid fid = some { f with
      messages := f.messages ++
        [{ messageId := st.nextMid, timestamp := st.clock, status := false,
           errors := ["1. " ++ noSchemaMsg], payload := payload }] } := by
  have hval := validateFn_no_schema env (pathJoin (flowsBase env) fid)
    (commonBase env) mod payload (mkCtx st sid fid s)
    (resolveSchemaPaths_no_schema env _ _ mod payload _ hsel hff hcfl htf htc)
  have hsf : assocGet s.flows fid = some f := flows_of_getFlowFn hgs hgf
  have hgs' : assocGet st.sessions sid = some s := hgs
  have hrec : mkRecord env st sid fid s mod payload = { messageId := st.nextMid, timestamp := st.clock, status := false, errors := ["1. " ++ noSchemaMsg], payload := payload } := by
    unfold mkRecord verdictOf
    simp only [hval]
    show ({ messageId := st.nextMid, timestamp := st.clock, status := false, errors := numberFrom 0 [noSchemaMsg], payload := payload } : Rec P) = _
    rfl
  unfold ingest
  simp only [hcs, hcf, hgs, hgf, hmod, hrec]
  refine ⟨?_, ?_⟩
  · rfl
  · unfold getFlowFn getSessionFn
    show (assocGet (updateAssoc sid _ st.sessions) sid).bind _ = _
    rw [assocGet_updateAssoc_self, hgs']
    show assocGet (updateAssoc fid _ s.flows) fid = _
    rw [assocGet_updateAssoc_self, hsf]
    rfl

/-- C1 counterexample fixtures: a flow whose plugin module file throws at
load time (`require` evaluates the file and the exception escapes). -/
def diskFault : String → Option (Except JsErr (Plugin Nat)) :=
  fun p => if p = "validators/flows/f/index.js"
    then some (.error (.jsError "boom")) else none

/-- Environment with the faulting plugin module. -/
def envFault : Env Nat Unit :=
  { baseDir := "validators", disk := diskFault, fileExists := fun _ => false,
    dirList := fun _ => none, compiled := fun _ _ => [], render := fun _ => "",
    ptype := fun _ => none }

/-- The flow "f" with empty history. -/
def flFault : Flow Nat :=
  { name := "f", createdAt := 0, endedAt := none, messages := [] }

/-- The session holding only `flFault`. -/
def sFault : Session Nat :=
  { createdAt := 0, endedAt := none, flows := [("f", flFault)] }

/-- A state with an active session 0 and active flow "f" with empty history. -/
def stFault : SrvState Nat :=
  { sessions := [(0, sFault)], curSession := some 0, curFlow := some "f",
    nextSid := 1, nextMid := 0, clock := 1, modCache := [] }

/-- C1 counterexample: with an active session and flow, a fault raised while
resolving the validator (the plugin module throws during `require`, which
happens before the handler's try/catch) is NOT downgraded: the ingest
rejects with the raw fault and the flow's history stays empty — the payload
is left unrecorded and the fault propagates to the transport layer,
contradicting the claim. -/
theorem c1_counterexample :
    stFault.curSession = some 0 ∧ stFault.curFlow = some "f" ∧
    (ingest envFault 42 stFault).1 = .unhandledFault (.jsError "boom") ∧
    getFlowFn (ingest envFault 42 stFault).2 0 "f" = some flFault :=
  ⟨rfl, rfl, rfl, rfl⟩

/-- C1 amended: a non-`ValidationError` fault raised inside
`validator.validate` IS caught by the ingest handler, downgraded to the
single custom error "Internal validator error", and the payload is still
recorded with a definite Invalid verdict; but a fault raised while loading
the flow plugin (`getValidatorForFlow` / `require`) happens outside the
try/catch, so it escapes unrecorded (see the counterexample). -/
theorem c1_internal_fault_downgraded_and_recorded {P E : Type} (env : Env P E)
    (payload : P) (st : SrvState P) (sid : Nat) (fid : String) (s : Session P)
    (f : Flow P) (mod : Plugin P) (mc : List (String × Plugin P)) (m : String)
    (hcs : st.curSession = some sid) (hcf : st.curFlow = some fid)
    (hgs : getSessionFn st sid = some s) (hgf : getFlowFn st sid fid = some f)
    (hmod : getValidatorForFlow env st.modCache fid = (.ok mod, mc))
    (hval : validateFn env (pathJoin (flowsBase env) fid) (commonBase env)
      mod payload (mkCtx st sid fid s) = .error (.jsError m)) :
    (ingest env payload st).1 =
      .invalidMsg st.nextMid ["1. Internal validator error"] ∧
    getFlowFn (ingest env payload st).2 sid fid = some { f with
      messages := f.messages ++
        [{ messageId := st.nextMid, timestamp := st.clock, status := false,
           errors := ["1. Internal validator error"], payload := payload }] } := by
  have hsf : assocGet s.flows fid = some f := flows_of_getFlowFn hgs hgf
  have hgs' : assocGet st.sessions sid = some s := hgs
  have hrec : mkRecord env st sid fid s mod payload = { messageId := st.nextMid, timestamp := st.clock, status := false, errors := ["1. Internal validator error"], payload := payload } := by
    unfold mkRecord verdictOf
    simp only [hval]
    show ({ messageId := st.nextMid, timestamp := st.clock, status := false, errors := numberFrom 0 ["Internal validator error"], payload := payload } : Rec P) = _
    rfl
  unfold ingest
  simp only [hcs, hcf, hgs, hgf, hmod, hrec]
  refine ⟨?_, ?_⟩
  · rfl
  · unfold getFlowFn getSessionFn
    show (assocGet (updateAssoc sid _ st.sessions) sid).bind _ = _
    rw [assocGet_updateAssoc_self, hgs']
    show assocGet (updateAssoc fid _ s.flows) fid = _
    rw [assocGet_updateAssoc_self, hsf]
    rfl

/-- Witness for C7: trivial environment (no schema files anywhere, no
plugin), active session 0 / flow "a". -/
theorem c7_no_schema_recorded_invalid_witness :
    listSchemaFiles envNone (pathJoin (flowsBase envNone) "a") = [] ∧
    listSchemaFiles envNone (commonBase envNone) = [] ∧
    ((ingest envNone (5 : Nat) stDemo).1 =
       .invalidMsg stDemo.nextMid ["1. " ++ noSchemaMsg] ∧
     getFlowFn (ingest envNone (5 : Nat) stDemo).2 0 "a" = some { flDemo with
       messages := flDemo.messages ++
         [{ messageId := stDemo.nextMid, timestamp := stDemo.clock, status := false,
            errors := ["1. " ++ noSchemaMsg], payload := 5 }] }) :=
  ⟨rfl, rfl, c7_no_schema_recorded_invalid envNone 5 stDemo 0 "a" sDemo flDemo
    emptyPlugin [] rfl rfl rfl rfl rfl (by trivial) rfl rfl
    (fun _ => rfl) (fun _ => rfl)⟩

/-- A plugin whose `selectSchema` throws a generic (non-`ValidationError`)
exception. -/
def pluginThrows : Plugin Nat :=
  { selectSchema := some (fun _ _ => .error (.jsError "boom")),
    validate := none }

/-- A disk holding `pluginThrows` as the flow "a" plugin module. -/
def diskThrows : String → Option (Except JsErr (Plugin Nat)) :=
  fun p => if p = "validators/flows/a/index.js" then some (.ok pluginThrows) else none

/-- Environment where loading succeeds but `selectSchema` throws. -/
def envThrows : Env Nat Unit :=
  { baseDir := "validators", disk := diskThrows, fileExists := fun _ => false,
    dirList := fun _ => none, compiled := fun _ _ => [], render := fun _ => "",
    ptype := fun _ => none }

/-- Witness for the amended C1: the plugin loads, its `selectSchema` throws
a generic error during `validate`, and the payload is still recorded
Invalid with the single "Internal validator error" custom error. -/
theorem c1_internal_fault_downgraded_and_recorded_witness :
    getValidatorForFlow envThrows stDemo.modCache "a" =
      (.ok pluginThrows, [("validators/flows/a/index.js", pluginThrows)]) ∧
    validateFn envThrows (pathJoin (flowsBase envThrows) "a") (commonBase envThrows)
      pluginThrows 5 (mkCtx stDemo 0 "a" sDemo) = .error (.jsError "boom") ∧
    ((ingest envThrows (5 : Nat) stDemo).1 =
       .invalidMsg stDemo.nextMid ["1. Internal validator error"] ∧
     getFlowFn (ingest envThrows (5 : Nat) stDemo).2 0 "a" = some { flDemo with
       messages := flDemo.messages ++
         [{ messageId := stDemo.nextMid, timestamp := stDemo.clock, status := false,
            errors := ["1. Internal validator error"], payload := 5 }] }) :=
  ⟨rfl, rfl, c1_internal_fault_downgraded_and_recorded envThrows 5 stDemo 0 "a"
    sDemo flDemo pluginThrows [("validators/flows/a/index.js", pluginThrows)]
    "boom" rfl rfl rfl rfl rfl rfl⟩

/- =====  C8: rules see only pre-existing records  ===== -/

/-- Record-id freshness: every recorded message id is below the generator. -/
def freshB {P : Type} (st : SrvState P) : Bool :=
  st.sessions.all (fun ps => ps.2.flows.all (fun pf =>
    pf.2.messages.all (fun m => m.messageId < st.nextMid)))

/-- C8: during one ingest, the query context's `findMessages` returns
exactly the records already stored in the pre-state (one flow when a flow
id is given, else all flows of the session, filtered by the predicate);
every such record's id predates the generator, while the record the Engine
appends — only after verdict computation — carries the fresh id
`st.nextMid`: a rule can never see the payload currently being validated. -/
theorem c8_find_messages_pre_state {P E : Type} (env : Env P E) (payload : P)
    (st : SrvState P) (sid : Nat) (fid : String) (s : Session P) (f : Flow P)
    (hcs : st.curSession = some sid) (hcf : st.curFlow = some fid)
    (hgs : getSessionFn st sid = some s) (hgf : getFlowFn st sid fid = some f)
    (hfresh : freshB st = true) :
    (∀ fq fl w, fq ≠ "" → assocGet s.flows fq = some fl →
      (mkCtx st sid fid s).findMessages (some fq) w =
        .ok (fl.messages.filter (whereFn w))) ∧
    (∀ w, (mkCtx st sid fid s).findMessages none w =
      .ok (((s.flows.map (fun p => p.2)).map
        (fun fl => fl.messages.filter (whereFn w))).flatten)) ∧
    (∀ fl ∈ s.flows.map (fun p => p.2), ∀ m ∈ fl.messages,
      m.messageId < st.nextMid) ∧
    (∀ out st', ingest env payload st = (out, st') →
      ∃ f', getFlowFn st' sid fid = some f' ∧
        (f'.messages = f.messages ∨
         ∃ rcd, f'.messages = f.messages ++ [rcd] ∧ rcd.messageId = st.nextMid)) := by
  have hgs' : assocGet st.sessions sid = some s := hgs
  have hsf : assocGet s.flows fid = some f := flows_of_getFlowFn hgs hgf
  refine ⟨?_, ?_, ?_, ?_⟩
  · intro fq fl w hne hget
    unfold mkCtx
    dsimp only
    rw [if_neg hne, getFlowFn_some hgs' fq, hget]
    dsimp only
    simp
  · intro w
    rfl
  · intro fl hfl m hm
    obtain ⟨pf, hpf, hpf2⟩ := List.mem_map.mp hfl
    have h2 : (s.flows.all fun pf0 =>
        pf0.2.messages.all fun m0 => decide (m0.messageId < st.nextMid)) = true :=
      List.all_eq_true.mp hfresh (sid, s) (mem_of_assocGet hgs')
    have h3 : (pf.2.messages.all fun m0 =>
        decide (m0.messageId < st.nextMid)) = true :=
      List.all_eq_true.mp h2 pf hpf
    have h4 : decide (m.messageId < st.nextMid) = true :=
      List.all_eq_true.mp h3 m (hpf2.symm ▸ hm)
    exact of_decide_eq_true h4
  · intro out st' heq
    revert heq
    unfold ingest
    simp only [hcs, hcf, hgs, hgf]
    cases hval : getValidatorForFlow env st.modCache fid with
    | mk r mc =>
      cases r with
      | error e =>
        intro heq
        cases heq
        exact ⟨f, hgf, Or.inl rfl⟩
      | ok mod =>
        intro heq
        cases heq
        refine ⟨{ f with messages := f.messages ++ [mkRecord env st sid fid s mod payload] }, ?_, Or.inr ⟨mkRecord env st sid fid s mod payload, rfl, rfl⟩⟩
        unfold getFlowFn getSessionFn
        show (assocGet (updateAssoc sid _ st.sessions) sid).bind _ = _
        rw [assocGet_updateAssoc_self, hgs']
        show assocGet (updateAssoc fid _ s.flows) fid = _
        rw [assocGet_updateAssoc_self, hsf]
        rfl

/-- The record ingested into `stDemo` under the no-schema environment. -/
def recDemo : Rec Nat :=
  { messageId := 0, timestamp := 2, status := false,
    errors := ["1. " ++ noSchemaMsg], payload := 5 }

/-- The flow "a" after that first ingest. -/
def flDemo2 : Flow Nat :=
  { name := "a", createdAt := 1, endedAt := none, messages := [recDemo] }

/-- The session after that first ingest. -/
def sDemo2 : Session Nat :=
  { createdAt := 0, endedAt := none, flows := [("a", flDemo2)] }

/-- The server state after that first ingest. -/
def stDemo2 : SrvState Nat := (ingest envNone 5 stDemo).2

/-- Witness for C8 at a state that already holds one record. -/
theorem c8_find_messages_pre_state_witness :
    freshB stDemo2 = true ∧
    ((∀ fq fl w, fq ≠ "" → assocGet sDemo2.flows fq = some fl →
        (mkCtx stDemo2 0 "a" sDemo2).findMessages (some fq) w =
          .ok (fl.messages.filter (whereFn w))) ∧
     (∀ w, (mkCtx stDemo2 0 "a" sDemo2).findMessages none w =
        .ok (((sDemo2.flows.map (fun p => p.2)).map
          (fun fl => fl.messages.filter (whereFn w))).flatten)) ∧
     (∀ fl ∈ sDemo2.flows.map (fun p => p.2), ∀ m ∈ fl.messages,
        m.messageId < stDemo2.nextMid) ∧
     (∀ out st', ingest envNone (9 : Nat) stDemo2 = (out, st') →
        ∃ f', getFlowFn st' 0 "a" = some f' ∧
          (f'.messages = flDemo2.messages ∨
           ∃ rcd, f'.messages = flDemo2.messages ++ [rcd] ∧
             rcd.messageId = stDemo2.nextMid))) :=
  ⟨rfl, c8_find_messages_pre_state envNone 9 stDemo2 0 "a" sDemo2 flDemo2
    rfl rfl rfl rfl rfl⟩

end NodeApps
